import Mathlib

/-!
Shallow embedding of `smallnest/fasttimerwheel` (src/timerwheel.go).

The Go code stores opaque `interface\x7b\x7d` values both as slot members and
as identity-index keys; `GoVal` models that key universe with two variants:
Go ints (which matter because `Remove` uses a bucket index as a deletion
key) and other comparable values (modelled as strings).

Times and durations are modelled as `Int` nanoseconds (`time.Time.UnixNano`
and `time.Duration` are both int64 in Go).  Go integer division and
remainder truncate toward zero, so they are embedded as `Int.tdiv` and
`Int.tmod`.  Locks are dropped: every operation is modelled as the atomic
state transformation its critical sections perform.
-/

namespace FastTimerWheel

/-- A Go `interface\x7b\x7d` map key: either a Go `int` or another opaque
comparable value (modelled as a string). -/
inductive GoVal where
  | int (n : Int)
  | str (s : String)
deriving DecidableEq, Repr

/-- The errors returned by `ScheduleAt` (ErrScheduleInPast,
ErrSchedulePastHighThreshold, ErrSlotIsFull in the Go source). -/
inductive ScheduleError where
  | ScheduleInPast
  | SchedulePastHighThreshold
  | SlotIsFull
deriving DecidableEq, Repr

/-- Lookup in the identity index (`tw.idSlotMap.Data[data]` with its `ok`
flag folded into `Option`). -/
def mapFind? (m : List (GoVal × Int)) (k : GoVal) : Option Int :=
  match m with
  | [] => none
  | p :: rest => if p.1 = k then some p.2 else mapFind? rest k

/-- Go map assignment `m[k] = v`, in a canonical list representation:
the entry for `k` is replaced (here: dropped and re-consed). -/
def mapInsert (m : List (GoVal × Int)) (k : GoVal) (v : Int) : List (GoVal × Int) :=
  (k, v) :: m.filter (fun p => p.1 ≠ k)

/-- The state of `TimerWheel` (src/timerwheel.go): `tickTime` and times in
nanoseconds, `slots` the ring of buckets (each a `SyncBoolMap`, i.e. a set
of identities), `idSlotMap` the identity index. -/
structure TimerWheel where
  tickTime : Int
  slotCount : Int
  CurrentStartTime : Int
  CurrentIndex : Int
  slots : List (Finset GoVal)
  maxSlotSize : Int
  idSlotMap : List (GoVal × Int)
deriving DecidableEq

/-- `ScheduleAt` (src/timerwheel.go lines 105-132).  Returns the error (if
any) together with the post-state, so that error paths demonstrably leave
the wheel unchanged, exactly as the Go early returns do. -/
def ScheduleAt (tw : TimerWheel) (at_ : Int) (data : GoVal) :
    Option ScheduleError × TimerWheel :=
  if at_ < tw.CurrentStartTime then
    (some .ScheduleInPast, tw)
  else
    let d := at_ - tw.CurrentStartTime
    let steps := Int.tdiv d tw.tickTime
    if steps ≥ tw.slotCount then
      (some .SchedulePastHighThreshold, tw)
    else
      let index := Int.tmod (tw.CurrentIndex + steps) tw.slotCount
      let slot := tw.slots.getD index.toNat ∅
      if tw.maxSlotSize > 0 ∧ (slot.card : Int) > tw.maxSlotSize then
        (some .SlotIsFull, tw)
      else
        (none,
          { tw with
              slots := tw.slots.set index.toNat (insert data slot)
              idSlotMap := mapInsert tw.idSlotMap data index })

/-- `Remove` (src/timerwheel.go lines 141-153).  Note the source line
`delete(slot.Data, index)`: the deletion key is the bucket index `index`
(a Go `int`), not `data`; the embedding reproduces that as
`Finset.erase slot (GoVal.int index)`. -/
def Remove (tw : TimerWheel) (data : GoVal) : TimerWheel :=
  match mapFind? tw.idSlotMap data with
  | none => tw
  | some index =>
      let slot := tw.slots.getD index.toNat ∅
      { tw with slots := tw.slots.set index.toNat (slot.erase (GoVal.int index)) }

/-- One rotation step (src/timerwheel.go lines 77-101), with `now` the
firing instant (`time.Now()`).  Returns the post-state together with the
pair `(start, expiredSlot)` that the Go code passes to
`tw.expiredDataFunc`. -/
def step (tw : TimerWheel) (now : Int) : TimerWheel × (Int × Finset GoVal) :=
  let start := tw.CurrentStartTime
  let expiredIndex := tw.CurrentIndex
  let newIndex := if tw.CurrentIndex + 1 ≥ tw.slotCount then 0 else tw.CurrentIndex + 1
  let expiredSlot := tw.slots.getD expiredIndex.toNat ∅
  ({ tw with
      CurrentIndex := newIndex
      CurrentStartTime := now
      slots := tw.slots.set expiredIndex.toNat ∅
      idSlotMap := tw.idSlotMap.filter (fun p => !(decide (p.1 ∈ expiredSlot))) },
   (start, expiredSlot))

/-- Well-formedness of a wheel state as established by `New` and preserved
by every operation: the ring has `slotCount` buckets and the cursor is in
range. -/
def WF (tw : TimerWheel) : Prop :=
  tw.slots.length = tw.slotCount.toNat ∧ 0 ≤ tw.CurrentIndex ∧ tw.CurrentIndex < tw.slotCount

instance (tw : TimerWheel) : Decidable (WF tw) := by
  unfold WF; infer_instance

/-! ## Helper lemmas -/

theorem mapFind?_mapInsert_self (m : List (GoVal × Int)) (k : GoVal) (v : Int) :
    mapFind? (mapInsert m k v) k = some v := by
  simp [mapFind?, mapInsert]

theorem mapFind?_filter_not_mem (m : List (GoVal × Int)) (s : Finset GoVal)
    (k : GoVal) (hk : k ∈ s) :
    mapFind? (m.filter fun p => !(decide (p.1 ∈ s))) k = none := by
  induction m with
  | nil => simp [mapFind?]
  | cons p rest ih =>
      by_cases hp : p.1 ∈ s
      · simpa [List.filter, hp] using ih
      · have hne : p.1 ≠ k := fun h => hp (h ▸ hk)
        simpa [List.filter, hp, mapFind?, hne] using ih

/-- Case analysis of `ScheduleAt`: exactly one of the four source branches
fires, and each branch's return value and post-state are as in the code. -/
theorem scheduleAt_cases (tw : TimerWheel) (t : Int) (x : GoVal) :
    (t < tw.CurrentStartTime ∧ ScheduleAt tw t x = (some .ScheduleInPast, tw)) ∨
    (¬ t < tw.CurrentStartTime ∧
      Int.tdiv (t - tw.CurrentStartTime) tw.tickTime ≥ tw.slotCount ∧
      ScheduleAt tw t x = (some .SchedulePastHighThreshold, tw)) ∨
    (¬ t < tw.CurrentStartTime ∧
      Int.tdiv (t - tw.CurrentStartTime) tw.tickTime < tw.slotCount ∧
      (tw.maxSlotSize > 0 ∧
        ((tw.slots.getD (Int.tmod (tw.CurrentIndex + Int.tdiv (t - tw.CurrentStartTime) tw.tickTime) tw.slotCount).toNat ∅).card : Int) > tw.maxSlotSize) ∧
      ScheduleAt tw t x = (some .SlotIsFull, tw)) ∨
    (¬ t < tw.CurrentStartTime ∧
      Int.tdiv (t - tw.CurrentStartTime) tw.tickTime < tw.slotCount ∧
      ¬ (tw.maxSlotSize > 0 ∧
        ((tw.slots.getD (Int.tmod (tw.CurrentIndex + Int.tdiv (t - tw.CurrentStartTime) tw.tickTime) tw.slotCount).toNat ∅).card : Int) > tw.maxSlotSize) ∧
      ScheduleAt tw t x =
        (none,
          { tw with
              slots := tw.slots.set
                (Int.tmod (tw.CurrentIndex + Int.tdiv (t - tw.CurrentStartTime) tw.tickTime) tw.slotCount).toNat
                (insert x (tw.slots.getD (Int.tmod (tw.CurrentIndex + Int.tdiv (t - tw.CurrentStartTime) tw.tickTime) tw.slotCount).toNat ∅))
              idSlotMap := mapInsert tw.idSlotMap x
                (Int.tmod (tw.CurrentIndex + Int.tdiv (t - tw.CurrentStartTime) tw.tickTime) tw.slotCount) })) := by
  unfold ScheduleAt
  dsimp only
  split_ifs with h1 h2 h3
  · exact Or.inl ⟨h1, rfl⟩
  · exact Or.inr (Or.inl ⟨h1, h2, rfl⟩)
  · exact Or.inr (Or.inr (Or.inl ⟨h1, by omega, h3, rfl⟩))
  · exact Or.inr (Or.inr (Or.inr ⟨h1, by omega, h3, rfl⟩))

theorem getD_set_self {α : Type} (l : List α) (n : Nat) (v d : α) (h : n < l.length) :
    (l.set n v).getD n d = v := by
  simp [List.getD_eq_getElem?_getD, List.getElem?_set_self h]

theorem getD_set_ne {α : Type} (l : List α) (n i : Nat) (v d : α) (h : n ≠ i) :
    (l.set n v).getD i d = l.getD i d := by
  simp [List.getD_eq_getElem?_getD, List.getElem?_set_ne h]

/-- Characterization of a successful `ScheduleAt`: the truncating
arithmetic of the source coincides with floor division/Euclidean modulus,
and the post-state inserts the identity into the target bucket and
re-points the identity index at it. -/
theorem scheduleAt_ok_spec (tw : TimerWheel) (t : Int) (x : GoVal)
    (htick : 0 < tw.tickTime) (hc0 : 0 ≤ tw.CurrentIndex)
    (hc1 : tw.CurrentIndex < tw.slotCount)
    (hok : (ScheduleAt tw t x).1 = none) :
    0 ≤ t - tw.CurrentStartTime
    ∧ 0 ≤ (t - tw.CurrentStartTime) / tw.tickTime
    ∧ (t - tw.CurrentStartTime) / tw.tickTime < tw.slotCount
    ∧ (ScheduleAt tw t x).2 =
        { tw with
            slots := tw.slots.set
              ((tw.CurrentIndex + (t - tw.CurrentStartTime) / tw.tickTime) % tw.slotCount).toNat
              (insert x (tw.slots.getD
                ((tw.CurrentIndex + (t - tw.CurrentStartTime) / tw.tickTime) % tw.slotCount).toNat ∅))
            idSlotMap := mapInsert tw.idSlotMap x
              ((tw.CurrentIndex + (t - tw.CurrentStartTime) / tw.tickTime) % tw.slotCount) } := by
  rcases scheduleAt_cases tw t x with
    ⟨h1, heq⟩ | ⟨h1, h2, heq⟩ | ⟨h1, h2, h3, heq⟩ | ⟨h1, h2, h3, heq⟩ <;>
    rw [heq] at hok ⊢ <;> try simp at hok
  have hd : 0 ≤ t - tw.CurrentStartTime := by omega
  have hsteps : Int.tdiv (t - tw.CurrentStartTime) tw.tickTime =
      (t - tw.CurrentStartTime) / tw.tickTime :=
    Int.tdiv_eq_ediv hd (le_of_lt htick)
  have hstep0 : 0 ≤ (t - tw.CurrentStartTime) / tw.tickTime :=
    Int.ediv_nonneg hd (le_of_lt htick)
  have hmod : Int.tmod (tw.CurrentIndex + Int.tdiv (t - tw.CurrentStartTime) tw.tickTime) tw.slotCount
      = (tw.CurrentIndex + (t - tw.CurrentStartTime) / tw.tickTime) % tw.slotCount := by
    rw [hsteps]; exact Int.tmod_eq_emod (by omega) (by omega)
  rw [hsteps] at h2
  refine ⟨hd, hstep0, by omega, ?_⟩
  rw [hmod]

/-- The target index of a successful `ScheduleAt` lies in `[0, slotCount)`. -/
theorem target_index_range (tw : TimerWheel) (t : Int) (hsc : 0 < tw.slotCount) :
    0 ≤ (tw.CurrentIndex + (t - tw.CurrentStartTime) / tw.tickTime) % tw.slotCount
    ∧ (tw.CurrentIndex + (t - tw.CurrentStartTime) / tw.tickTime) % tw.slotCount < tw.slotCount :=
  ⟨Int.emod_nonneg _ (by omega), Int.emod_lt_of_pos _ hsc⟩

/-! ## Claim theorems -/

/-- C3: `ScheduleAt tw t x` returns `ScheduleInPast` if and only if `t`
precedes `tw.CurrentStartTime`, and in that case the wheel state is
returned entirely unchanged (no bucket and no identity-index mutation). -/
theorem scheduleAt_inPast_iff_unchanged (tw : TimerWheel) (t : Int) (x : GoVal) :
    ((ScheduleAt tw t x).1 = some ScheduleError.ScheduleInPast ↔ t < tw.CurrentStartTime)
    ∧ (t < tw.CurrentStartTime → ScheduleAt tw t x = (some ScheduleError.ScheduleInPast, tw)) := by
  rcases scheduleAt_cases tw t x with
    ⟨h1, heq⟩ | ⟨h1, h2, heq⟩ | ⟨h1, h2, h3, heq⟩ | ⟨h1, h2, h3, heq⟩ <;>
    rw [heq] <;> simp [h1]

/-- C4: for `t` not before `CurrentStartTime` and a positive tick, the
`steps` the code computes by truncating division equals the mathematical
floor `(t - CurrentStartTime) / tickTime`, and `ScheduleAt` returns
`SchedulePastHighThreshold`, leaving the state unchanged, exactly when
`steps ≥ slotCount`. -/
theorem scheduleAt_threshold_iff (tw : TimerWheel) (t : Int) (x : GoVal)
    (h1 : ¬ t < tw.CurrentStartTime) (h2 : 0 < tw.tickTime) :
    Int.tdiv (t - tw.CurrentStartTime) tw.tickTime = (t - tw.CurrentStartTime) / tw.tickTime
    ∧ ((ScheduleAt tw t x).1 = some ScheduleError.SchedulePastHighThreshold ↔
        (t - tw.CurrentStartTime) / tw.tickTime ≥ tw.slotCount)
    ∧ ((t - tw.CurrentStartTime) / tw.tickTime ≥ tw.slotCount →
        ScheduleAt tw t x = (some ScheduleError.SchedulePastHighThreshold, tw)) := by
  have hdiv : Int.tdiv (t - tw.CurrentStartTime) tw.tickTime =
      (t - tw.CurrentStartTime) / tw.tickTime :=
    Int.tdiv_eq_ediv (by omega) (le_of_lt h2)
  refine ⟨hdiv, ?_⟩
  rcases scheduleAt_cases tw t x with
    ⟨h1', heq⟩ | ⟨h1', h2', heq⟩ | ⟨h1', h2', h3', heq⟩ | ⟨h1', h2', h3', heq⟩ <;>
    rw [heq] <;> rw [hdiv] at * <;> first
      | exact absurd h1' (by simpa using h1)
      | (constructor <;> simp <;> omega)

/-- C5: a successful `ScheduleAt tw t x` with
`steps = floor((t - CurrentStartTime) / tickTime)` puts `x` into the
bucket at index `(CurrentIndex + steps) mod slotCount` and makes the
identity index map `x` to that same index. -/
theorem scheduleAt_success_placement (tw : TimerWheel) (t : Int) (x : GoVal)
    (hwf : WF tw) (htick : 0 < tw.tickTime)
    (hok : (ScheduleAt tw t x).1 = none) :
    0 ≤ (t - tw.CurrentStartTime) / tw.tickTime
    ∧ (t - tw.CurrentStartTime) / tw.tickTime < tw.slotCount
    ∧ x ∈ (ScheduleAt tw t x).2.slots.getD
        ((tw.CurrentIndex + (t - tw.CurrentStartTime) / tw.tickTime) % tw.slotCount).toNat ∅
    ∧ mapFind? (ScheduleAt tw t x).2.idSlotMap x =
        some ((tw.CurrentIndex + (t - tw.CurrentStartTime) / tw.tickTime) % tw.slotCount) := by
  obtain ⟨hlen, hc0, hc1⟩ := hwf
  obtain ⟨hd, hs0, hs1, hst⟩ := scheduleAt_ok_spec tw t x htick hc0 hc1 hok
  obtain ⟨hi0, hi1⟩ := target_index_range tw t (by omega)
  have hrange :
      ((tw.CurrentIndex + (t - tw.CurrentStartTime) / tw.tickTime) % tw.slotCount).toNat <
        tw.slots.length := by omega
  refine ⟨hs0, hs1, ?_, ?_⟩
  · rw [hst]
    rw [getD_set_self _ _ _ _ hrange]
    exact Finset.mem_insert_self x _
  · rw [hst]
    exact mapFind?_mapInsert_self _ _ _

/-- C6: one rotation step hands the expiration callback exactly the pair
`(start, detachedBucket)` where `start` is the pre-step
`CurrentStartTime` and `detachedBucket` the pre-step contents of the
bucket at the pre-step `CurrentIndex`; it replaces that bucket with a
fresh empty one and removes every identity of the detached bucket from
the identity index. -/
theorem step_retires_bucket (tw : TimerWheel) (now : Int)
    (hlen : tw.slots.length = tw.slotCount.toNat)
    (hc0 : 0 ≤ tw.CurrentIndex) (hc1 : tw.CurrentIndex < tw.slotCount) :
    (step tw now).2 = (tw.CurrentStartTime, tw.slots.getD tw.CurrentIndex.toNat ∅)
    ∧ (step tw now).1.slots.getD tw.CurrentIndex.toNat ∅ = ∅
    ∧ ∀ k ∈ tw.slots.getD tw.CurrentIndex.toNat ∅,
        mapFind? (step tw now).1.idSlotMap k = none := by
  refine ⟨rfl, ?_, ?_⟩
  · unfold step
    dsimp only
    exact getD_set_self _ _ _ _ (by omega)
  · intro k hk
    unfold step
    dsimp only
    exact mapFind?_filter_not_mem _ _ _ hk

/-- C7: one rotation step advances `CurrentIndex` by exactly one position
modulo `slotCount`, and the result stays in `[0, slotCount)`. -/
theorem step_advances_currentIndex (tw : TimerWheel) (now : Int)
    (h1 : 0 ≤ tw.CurrentIndex) (h2 : tw.CurrentIndex < tw.slotCount) :
    (step tw now).1.CurrentIndex = (tw.CurrentIndex + 1) % tw.slotCount
    ∧ 0 ≤ (step tw now).1.CurrentIndex
    ∧ (step tw now).1.CurrentIndex < tw.slotCount := by
  unfold step
  dsimp only
  split_ifs with h
  · have hci : tw.CurrentIndex + 1 = tw.slotCount := by omega
    rw [hci, Int.emod_self]
    refine ⟨rfl, le_refl 0, by omega⟩
  · rw [Int.emod_eq_of_lt (by omega) (by omega)]
    exact ⟨rfl, by omega, by omega⟩

/-- C8: `Remove` is a total function (it never fails): when the identity is
absent from the identity index it returns the state entirely unchanged,
and in every case it leaves the identity index itself untouched — in
particular it never deletes the identity's own mapping. -/
theorem remove_total_noop_preserves_index (tw : TimerWheel) (x : GoVal) :
    (mapFind? tw.idSlotMap x = none → Remove tw x = tw)
    ∧ (Remove tw x).idSlotMap = tw.idSlotMap
    ∧ mapFind? (Remove tw x).idSlotMap x = mapFind? tw.idSlotMap x := by
  unfold Remove
  cases hm : mapFind? tw.idSlotMap x <;> simp [hm]

/-- C9: when `x` already sits in bucket `b` with index mapping `x → b`, a
later successful `ScheduleAt` whose target index differs from `b`
re-points the index mapping to the new bucket but leaves `x` inside the
old bucket `b` as well, so `x` is present in two buckets at once. -/
theorem scheduleAt_reschedule_two_buckets (tw : TimerWheel) (t : Int) (x : GoVal) (b : Int)
    (hwf : WF tw) (htick : 0 < tw.tickTime)
    (hb0 : 0 ≤ b) (hb1 : b < tw.slotCount)
    (_hmap : mapFind? tw.idSlotMap x = some b)
    (hmem : x ∈ tw.slots.getD b.toNat ∅)
    (hok : (ScheduleAt tw t x).1 = none)
    (hne : (tw.CurrentIndex + (t - tw.CurrentStartTime) / tw.tickTime) % tw.slotCount ≠ b) :
    mapFind? (ScheduleAt tw t x).2.idSlotMap x =
      some ((tw.CurrentIndex + (t - tw.CurrentStartTime) / tw.tickTime) % tw.slotCount)
    ∧ x ∈ (ScheduleAt tw t x).2.slots.getD b.toNat ∅
    ∧ x ∈ (ScheduleAt tw t x).2.slots.getD
        ((tw.CurrentIndex + (t - tw.CurrentStartTime) / tw.tickTime) % tw.slotCount).toNat ∅ := by
  obtain ⟨hlen, hc0, hc1⟩ := hwf
  obtain ⟨hd, hs0, hs1, hst⟩ := scheduleAt_ok_spec tw t x htick hc0 hc1 hok
  obtain ⟨hi0, hi1⟩ := target_index_range tw t (by omega)
  have hrange :
      ((tw.CurrentIndex + (t - tw.CurrentStartTime) / tw.tickTime) % tw.slotCount).toNat <
        tw.slots.length := by omega
  have hneNat :
      ((tw.CurrentIndex + (t - tw.CurrentStartTime) / tw.tickTime) % tw.slotCount).toNat ≠
        b.toNat := by omega
  refine ⟨?_, ?_, ?_⟩
  · rw [hst]
    exact mapFind?_mapInsert_self _ _ _
  · rw [hst]
    show x ∈ (tw.slots.set _ _).getD b.toNat ∅
    rw [getD_set_ne _ _ _ _ _ hneNat]
    exact hmem
  · rw [hst]
    show x ∈ (tw.slots.set _ _).getD _ ∅
    rw [getD_set_self _ _ _ _ hrange]
    exact Finset.mem_insert_self x _

/-- C10: `ScheduleAt` and `Remove` preserve `tickTime`, `slotCount`,
`maxSlotSize`, `CurrentIndex` and `CurrentStartTime`, and change the
contents of at most one bucket of the ring; thus only the rotation `step`
can modify `CurrentIndex`, `CurrentStartTime`, or the buckets wholesale. -/
theorem schedule_remove_frame (tw : TimerWheel) (t : Int) (x y : GoVal) :
    ((ScheduleAt tw t x).2.tickTime = tw.tickTime
      ∧ (ScheduleAt tw t x).2.slotCount = tw.slotCount
      ∧ (ScheduleAt tw t x).2.maxSlotSize = tw.maxSlotSize
      ∧ (ScheduleAt tw t x).2.CurrentIndex = tw.CurrentIndex
      ∧ (ScheduleAt tw t x).2.CurrentStartTime = tw.CurrentStartTime
      ∧ ∃ j, ∀ i, i ≠ j → (ScheduleAt tw t x).2.slots.getD i ∅ = tw.slots.getD i ∅)
    ∧ ((Remove tw y).tickTime = tw.tickTime
      ∧ (Remove tw y).slotCount = tw.slotCount
      ∧ (Remove tw y).maxSlotSize = tw.maxSlotSize
      ∧ (Remove tw y).CurrentIndex = tw.CurrentIndex
      ∧ (Remove tw y).CurrentStartTime = tw.CurrentStartTime
      ∧ ∃ j, ∀ i, i ≠ j → (Remove tw y).slots.getD i ∅ = tw.slots.getD i ∅) := by
  constructor
  · rcases scheduleAt_cases tw t x with
      ⟨h1, heq⟩ | ⟨h1, h2, heq⟩ | ⟨h1, h2, h3, heq⟩ | ⟨h1, h2, h3, heq⟩ <;> rw [heq]
    · exact ⟨rfl, rfl, rfl, rfl, rfl, 0, fun i _ => rfl⟩
    · exact ⟨rfl, rfl, rfl, rfl, rfl, 0, fun i _ => rfl⟩
    · exact ⟨rfl, rfl, rfl, rfl, rfl, 0, fun i _ => rfl⟩
    · refine ⟨rfl, rfl, rfl, rfl, rfl,
        (Int.tmod (tw.CurrentIndex + Int.tdiv (t - tw.CurrentStartTime) tw.tickTime) tw.slotCount).toNat,
        fun i hi => ?_⟩
      exact getD_set_ne _ _ _ _ _ (Ne.symm hi)
  · unfold Remove
    cases hm : mapFind? tw.idSlotMap y with
    | none => exact ⟨rfl, rfl, rfl, rfl, rfl, 0, fun i _ => rfl⟩
    | some idx =>
        refine ⟨rfl, rfl, rfl, rfl, rfl, idx.toNat, fun i hi => ?_⟩
        exact getD_set_ne _ _ _ _ _ (Ne.symm hi)

/-! ## Concrete states for counterexamples and witnesses -/

/-- A wheel whose bucket 0 holds the identity `"a"`, with the identity
index mapping `"a" → 0`: the state reached by scheduling `"a"` into the
current window. -/
def twA : TimerWheel :=
  { tickTime := 100, slotCount := 2, CurrentStartTime := 0, CurrentIndex := 0,
    slots := [{GoVal.str "a"}, ∅], maxSlotSize := 0,
    idSlotMap := [(GoVal.str "a", 0)] }

/-- A one-slot wheel with `maxSlotSize = 1`. -/
def twB : TimerWheel :=
  { tickTime := 100, slotCount := 1, CurrentStartTime := 0, CurrentIndex := 0,
    slots := [∅], maxSlotSize := 1, idSlotMap := [] }

/-- An empty two-slot wheel. -/
def twC : TimerWheel :=
  { tickTime := 100, slotCount := 2, CurrentStartTime := 0, CurrentIndex := 0,
    slots := [∅, ∅], maxSlotSize := 0, idSlotMap := [] }

/-- C1: the cancellation defect.  In `twA` the identity `"a"` is in bucket
0 and the index maps `"a" → 0`, yet `Remove "a"` leaves the state
entirely unchanged — the source deletes the key `index` (the Go int `0`)
from the bucket instead of the identity — so `"a"` is still delivered to
the expiration callback when bucket 0 retires. -/
theorem remove_deletes_wrong_key :
    mapFind? twA.idSlotMap (GoVal.str "a") = some 0
    ∧ GoVal.str "a" ∈ twA.slots.getD 0 ∅
    ∧ Remove twA (GoVal.str "a") = twA
    ∧ GoVal.str "a" ∈ (Remove twA (GoVal.str "a")).slots.getD 0 ∅
    ∧ (step (Remove twA (GoVal.str "a")) 100).2 = (0, {GoVal.str "a"}) := by
  decide

/-- C2: the capacity off-by-one.  With `maxSlotSize = 1`, the second
insertion into the same bucket also succeeds (the source rejects only
when the current size strictly exceeds `maxSlotSize`), so the bucket
reaches size 2 > 1; only the third insertion fails with `SlotIsFull`. -/
theorem slot_capacity_off_by_one :
    twB.maxSlotSize = 1
    ∧ (ScheduleAt twB 0 (GoVal.str "a")).1 = none
    ∧ (ScheduleAt (ScheduleAt twB 0 (GoVal.str "a")).2 0 (GoVal.str "b")).1 = none
    ∧ ((ScheduleAt (ScheduleAt twB 0 (GoVal.str "a")).2 0 (GoVal.str "b")).2.slots.getD 0 ∅).card = 2
    ∧ (ScheduleAt
        (ScheduleAt (ScheduleAt twB 0 (GoVal.str "a")).2 0 (GoVal.str "b")).2
        0 (GoVal.str "c")).1 = some ScheduleError.SlotIsFull := by
  decide

/-! ## Witnesses -/

/-- Witness for C4 at `twC`, `t = 250`: `steps = 2 ≥ slotCount = 2`. -/
theorem scheduleAt_threshold_iff_witness :
    Int.tdiv (250 - twC.CurrentStartTime) twC.tickTime =
      (250 - twC.CurrentStartTime) / twC.tickTime
    ∧ ((ScheduleAt twC 250 (GoVal.str "a")).1 = some ScheduleError.SchedulePastHighThreshold ↔
        (250 - twC.CurrentStartTime) / twC.tickTime ≥ twC.slotCount)
    ∧ ((250 - twC.CurrentStartTime) / twC.tickTime ≥ twC.slotCount →
        ScheduleAt twC 250 (GoVal.str "a") = (some ScheduleError.SchedulePastHighThreshold, twC)) :=
  scheduleAt_threshold_iff twC 250 (GoVal.str "a") (by decide) (by decide)

/-- Witness for C5 at `twC`, `t = 150`: `steps = 1`, target bucket 1. -/
theorem scheduleAt_success_placement_witness :
    0 ≤ (150 - twC.CurrentStartTime) / twC.tickTime
    ∧ (150 - twC.CurrentStartTime) / twC.tickTime < twC.slotCount
    ∧ GoVal.str "x" ∈ (ScheduleAt twC 150 (GoVal.str "x")).2.slots.getD
        ((twC.CurrentIndex + (150 - twC.CurrentStartTime) / twC.tickTime) % twC.slotCount).toNat ∅
    ∧ mapFind? (ScheduleAt twC 150 (GoVal.str "x")).2.idSlotMap (GoVal.str "x") =
        some ((twC.CurrentIndex + (150 - twC.CurrentStartTime) / twC.tickTime) % twC.slotCount) :=
  scheduleAt_success_placement twC 150 (GoVal.str "x") (by decide) (by decide) (by decide)

/-- Witness for C6 at `twA`: retiring bucket 0 delivers `(0, {"a"})`,
empties the slot and purges `"a"` from the index. -/
theorem step_retires_bucket_witness :
    (step twA 100).2 = (twA.CurrentStartTime, twA.slots.getD twA.CurrentIndex.toNat ∅)
    ∧ (step twA 100).1.slots.getD twA.CurrentIndex.toNat ∅ = ∅
    ∧ ∀ k ∈ twA.slots.getD twA.CurrentIndex.toNat ∅,
        mapFind? (step twA 100).1.idSlotMap k = none :=
  step_retires_bucket twA 100 (by decide) (by decide) (by decide)

/-- Witness for C7 at `twA`. -/
theorem step_advances_currentIndex_witness :
    (step twA 100).1.CurrentIndex = (twA.CurrentIndex + 1) % twA.slotCount
    ∧ 0 ≤ (step twA 100).1.CurrentIndex
    ∧ (step twA 100).1.CurrentIndex < twA.slotCount :=
  step_advances_currentIndex twA 100 (by decide) (by decide)

/-- Witness for C9 at `twA`, `t = 150`: `"a"` sits in bucket 0, the new
target bucket is 1, and afterwards `"a"` is in both buckets. -/
theorem scheduleAt_reschedule_two_buckets_witness :
    mapFind? (ScheduleAt twA 150 (GoVal.str "a")).2.idSlotMap (GoVal.str "a") =
      some ((twA.CurrentIndex + (150 - twA.CurrentStartTime) / twA.tickTime) % twA.slotCount)
    ∧ GoVal.str "a" ∈ (ScheduleAt twA 150 (GoVal.str "a")).2.slots.getD (0 : Int).toNat ∅
    ∧ GoVal.str "a" ∈ (ScheduleAt twA 150 (GoVal.str "a")).2.slots.getD
        ((twA.CurrentIndex + (150 - twA.CurrentStartTime) / twA.tickTime) % twA.slotCount).toNat ∅ :=
  scheduleAt_reschedule_two_buckets twA 150 (GoVal.str "a") 0
    (by decide) (by decide) (by decide) (by decide) (by decide) (by decide) (by decide)
    (by decide)

/-- Witness for C3 at `twB`, `t = -1` (one nanosecond before the window). -/
theorem scheduleAt_inPast_iff_unchanged_witness :
    ((ScheduleAt twB (-1) (GoVal.str "a")).1 = some ScheduleError.ScheduleInPast ↔
      (-1 : Int) < twB.CurrentStartTime)
    ∧ ((-1 : Int) < twB.CurrentStartTime →
        ScheduleAt twB (-1) (GoVal.str "a") = (some ScheduleError.ScheduleInPast, twB)) :=
  scheduleAt_inPast_iff_unchanged twB (-1) (GoVal.str "a")

/-- Witness for C8 at `twA` with the never-scheduled identity `"b"`. -/
theorem remove_total_noop_preserves_index_witness :
    (mapFind? twA.idSlotMap (GoVal.str "b") = none → Remove twA (GoVal.str "b") = twA)
    ∧ (Remove twA (GoVal.str "b")).idSlotMap = twA.idSlotMap
    ∧ mapFind? (Remove twA (GoVal.str "b")).idSlotMap (GoVal.str "b") =
        mapFind? twA.idSlotMap (GoVal.str "b") :=
  remove_total_noop_preserves_index twA (GoVal.str "b")

/-- Witness for C10 at `twA`, `t = 150`. -/
theorem schedule_remove_frame_witness :
    ((ScheduleAt twA 150 (GoVal.str "a")).2.tickTime = twA.tickTime
      ∧ (ScheduleAt twA 150 (GoVal.str "a")).2.slotCount = twA.slotCount
      ∧ (ScheduleAt twA 150 (GoVal.str "a")).2.maxSlotSize = twA.maxSlotSize
      ∧ (ScheduleAt twA 150 (GoVal.str "a")).2.CurrentIndex = twA.CurrentIndex
      ∧ (ScheduleAt twA 150 (GoVal.str "a")).2.CurrentStartTime = twA.CurrentStartTime
      ∧ ∃ j, ∀ i, i ≠ j →
          (ScheduleAt twA 150 (GoVal.str "a")).2.slots.getD i ∅ = twA.slots.getD i ∅)
    ∧ ((Remove twA (GoVal.str "a")).tickTime = twA.tickTime
      ∧ (Remove twA (GoVal.str "a")).slotCount = twA.slotCount
      ∧ (Remove twA (GoVal.str "a")).maxSlotSize = twA.maxSlotSize
      ∧ (Remove twA (GoVal.str "a")).CurrentIndex = twA.CurrentIndex
      ∧ (Remove twA (GoVal.str "a")).CurrentStartTime = twA.CurrentStartTime
      ∧ ∃ j, ∀ i, i ≠ j →
          (Remove twA (GoVal.str "a")).slots.getD i ∅ = twA.slots.getD i ∅) :=
  schedule_remove_frame twA 150 (GoVal.str "a") (GoVal.str "a")

end FastTimerWheel
